import Mathlib

/-!
Verification of the WACC-step-by-step calculators (CostofDebt.py,
CostofEquity.py, WACC.py) against their natural-language specification.
Each Python routine named in a claim is shallowly embedded below: spreadsheet
cells become an explicit `Cell` type, Python `None` becomes `Option`, Python
exceptions and early `return None` paths become `Except` error values, and
Python floats are modelled as exact rationals (or reals where square roots
and real exponents occur).  Division by zero, which numpy turns into an
IEEE infinity with warnings suppressed, is modelled by the `NpFloat` type.
-/

namespace WaccStep

/-- Model of a non-missing spreadsheet cell: a number or a text string.
A `pandas` missing value (NaN, for which `pd.notna` is false) is modelled
as `none` at the `Option Cell` level. -/
inductive Cell where
  | num (q : ℚ)
  | str (s : String)
deriving DecidableEq, Repr

/-- Python `str(cell)`.  Numeric cells never feed the claims through this
path, so their rendered text is immaterial; string cells are themselves. -/
def cellStr : Cell → String
  | .num q => toString q
  | .str s => s

/-- Python `float(cell)`: succeeds on numeric cells, raises `ValueError`
(modelled as `none`) on text cells.  Numeric-looking text is not modelled;
no claim exercises it. -/
def cellFloat : Cell → Option ℚ
  | .num q => some q
  | .str _ => none

/-- Key normalization used by both country-table loaders:
`str(row[col]).strip()` followed by `.upper()`. -/
def normalizeKey (s : String) : String := s.trim.toUpper

/-- One raw row of a country/value reference sheet, after column selection:
the `Country` cell and the chosen value cell. -/
structure RefRow where
  country : Option Cell
  value : Option Cell

/-- Loop body of `load_bond_yield_data` (CostofEquity.py lines 110-123 and
identically CostofDebt.py lines 165-178): when both cells are present and
the value parses as a float, divide values `> 1` by 100 and store under the
upper-cased, trimmed country key (overwriting any earlier entry). -/
def bond_store_row (acc : String → Option ℚ) (r : RefRow) : String → Option ℚ :=
  match r.country, r.value with
  | some c, some v =>
    match cellFloat v with
    | some yv =>
      let yv2 := if yv > 1 then yv / 100 else yv
      fun k => if k = normalizeKey (cellStr c) then some yv2 else acc k
    | none => acc
  | _, _ => acc

/-- `load_bond_yield_data` (CostofEquity.py lines 107-126): fold the rows
into a country-to-yield lookup. -/
def load_bond_yield_data (rows : List RefRow) : String → Option ℚ :=
  rows.foldl bond_store_row (fun _ => none)

/-- Loop body of `load_erp_data` (CostofEquity.py lines 164-173): when both
cells are present and the value parses as a float, store it unchanged under
the upper-cased, trimmed country key.  Note: unlike the bond loader, there
is no division of values `> 1` by 100 in the source. -/
def erp_store_row (acc : String → Option ℚ) (r : RefRow) : String → Option ℚ :=
  match r.country, r.value with
  | some c, some v =>
    match cellFloat v with
    | some ev =>
      fun k => if k = normalizeKey (cellStr c) then some ev else acc k
    | none => acc
  | _, _ => acc

/-- `load_erp_data` (CostofEquity.py lines 161-174). -/
def load_erp_data (rows : List RefRow) : String → Option ℚ :=
  rows.foldl erp_store_row (fun _ => none)

/-- One band of a synthetic-ratings table (CostofDebt.py lines 64-69). -/
structure RatingBand where
  min_ratio : ℚ
  max_ratio : ℚ
  rating : String
  spread : ℚ
deriving DecidableEq, Repr

/-- The Python membership test on line 311 of CostofDebt.py:
`min_ratio <= ratio <= max_ratio`, a closed interval at both ends. -/
def inBand (b : RatingBand) (ratio : ℚ) : Bool :=
  decide (b.min_ratio ≤ ratio) && decide (ratio ≤ b.max_ratio)

/-- The scan loop of `assign_synthetic_rating` (CostofDebt.py lines
307-320): first band containing the ratio, in stored order. -/
def findBand : List RatingBand → ℚ → Option RatingBand
  | [], _ => none
  | b :: rest, ratio => if inBand b ratio then some b else findBand rest ratio

/-- Error raised by `rating_table[0]` on an empty table (Python
`IndexError`). -/
inductive RatingError where
  | indexError
deriving DecidableEq, Repr

/-- `assign_synthetic_rating` (CostofDebt.py lines 290-331) restricted to
its computation: scan for the first matching band; if none matches, fall
back to `rating_table[0]` (raising `IndexError` when the table is empty).
Both the match path and the fallback path return a plain `(rating, spread)`
pair; the source marks the fallback only by a printed console warning. -/
def assign_synthetic_rating (table : List RatingBand) (ratio : ℚ) :
    Except RatingError (String × ℚ) :=
  match findBand table ratio with
  | some b => .ok (b.rating, b.spread)
  | none =>
    match table with
    | [] => .error .indexError
    | worst :: _ => .ok (worst.rating, worst.spread)

/-- The three category tables built by `load_synthetic_ratings_data`
(CostofDebt.py lines 48-52). -/
structure SyntheticRatingsData where
  large_cap : List RatingBand
  small_cap : List RatingBand
  financial : List RatingBand
deriving DecidableEq, Repr

/-- The four cells of one category block of a raw ratings row (columns 0-3,
5-8 or 10-13 of the sheet). -/
structure RawBandCells where
  c_min : Option Cell
  c_max : Option Cell
  c_rating : Option Cell
  c_spread : Option Cell

/-- One raw row of the ratings sheet (from sheet row 3 on, the region the
source iterates over), split into its three category blocks. -/
structure RawRatingRow where
  large_cap : RawBandCells
  small_cap : RawBandCells
  financial : RawBandCells

/-- Per-block parsing of `load_synthetic_ratings_data` (CostofDebt.py lines
61-69 and the two analogous blocks): all four cells present (`pd.notna`),
the two bounds numeric (`isinstance(..., (int, float))`), the rating taken
via `str(...)`, and the spread via `float(...)` (a failure there is caught
and the block skipped). -/
def parseBand (cells : RawBandCells) : Option RatingBand :=
  match cells.c_min, cells.c_max, cells.c_rating, cells.c_spread with
  | some a, some b, some c, some d =>
    match a, b with
    | .num mn, .num mx =>
      match cellFloat d with
      | some sp => some ⟨mn, mx, cellStr c, sp⟩
      | none => none
    | _, _ => none
  | _, _, _, _ => none

/-- Failure reported when every category table parses empty (CostofDebt.py
lines 100-102: `if not any(self.synthetic_ratings_data.values())`). -/
inductive LoadRatingsError where
  | noValidRatingData
deriving DecidableEq, Repr

/-- `load_synthetic_ratings_data` (CostofDebt.py lines 34-115) restricted
to its parsing: build the three category tables and fail only when all
three are empty. -/
def load_synthetic_ratings_data (rows : List RawRatingRow) :
    Except LoadRatingsError SyntheticRatingsData :=
  let data : SyntheticRatingsData :=
    { large_cap := rows.filterMap (fun r => parseBand r.large_cap)
      small_cap := rows.filterMap (fun r => parseBand r.small_cap)
      financial := rows.filterMap (fun r => parseBand r.financial) }
  if data.large_cap = [] ∧ data.small_cap = [] ∧ data.financial = [] then
    .error .noValidRatingData
  else
    .ok data

/-- The company size class stored in `self.company_type` (CostofDebt.py
lines 217-222). -/
inductive CompanyType where
  | large_cap
  | small_cap
  | financial
deriving DecidableEq, Repr

/-- Table selection `self.synthetic_ratings_data[self.company_type]`
(CostofDebt.py line 301). -/
def selectTable (d : SyntheticRatingsData) : CompanyType → List RatingBand
  | .large_cap => d.large_cap
  | .small_cap => d.small_cap
  | .financial => d.financial

/-- `assign_synthetic_rating` including the table selection by company
type (CostofDebt.py lines 301-331). -/
def assign_by_type (d : SyntheticRatingsData) (ct : CompanyType) (ratio : ℚ) :
    Except RatingError (String × ℚ) :=
  assign_synthetic_rating (selectTable d ct) ratio

/-- The financial inputs stored by `get_financial_inputs` (CostofDebt.py
lines 238-288). -/
structure CreditInputs where
  ebit : ℚ
  interest_expense : ℚ
  interest_coverage_ratio : ℚ
deriving DecidableEq, Repr

/-- `get_financial_inputs` (CostofDebt.py lines 238-288) restricted to its
computation: both prompts are entered in millions and scaled by 1,000,000;
a zero-or-negative interest value stores expense 0 and the sentinel
coverage ratio 20, otherwise the ratio is `ebit / interest_expense`. -/
def get_financial_inputs (ebit_millions interest_millions : ℚ) : CreditInputs :=
  let ebit := ebit_millions * 1000000
  let interest_value := interest_millions * 1000000
  if interest_value ≤ 0 then
    { ebit := ebit, interest_expense := 0, interest_coverage_ratio := 20 }
  else
    { ebit := ebit, interest_expense := interest_value,
      interest_coverage_ratio := ebit / interest_value }

/-- Error of `calculate_cost_of_debt` when a required attribute is still
`None` (CostofDebt.py lines 430-432). -/
inductive CostOfDebtError where
  | missingInput
deriving DecidableEq, Repr

/-- `calculate_cost_of_debt` (CostofDebt.py lines 428-436):
`(risk_free_rate + spread) * (1 - tax_rate)`, or the missing-input failure
when any of the three attributes is `None`. -/
def calculate_cost_of_debt (risk_free_rate spread tax_rate : Option ℚ) :
    Except CostOfDebtError ℚ :=
  match risk_free_rate, spread, tax_rate with
  | some rf, some sp, some tax => .ok ((rf + sp) * (1 - tax))
  | _, _, _ => .error .missingInput

/-- Failure modes of `calculate_wacc` (WACC.py lines 290-302): the early
`return None` when an input is `None`, and the uncaught Python
`ZeroDivisionError` when the total value is exactly zero. -/
inductive WaccError where
  | missingInput
  | zeroDivision
deriving DecidableEq, Repr

/-- The quantities `calculate_wacc` derives (WACC.py lines 297-302). -/
structure WaccResult where
  total_value : ℚ
  weight_equity : ℚ
  weight_debt : ℚ
  wacc : ℚ
deriving DecidableEq, Repr

/-- `calculate_wacc` (WACC.py lines 290-302): fail when any of the four
inputs is `None`; otherwise divide by `total_value` (which raises
`ZeroDivisionError` exactly when the total is zero — the source has no
check against a non-positive total) and combine the weighted costs. -/
def calculate_wacc (cost_of_equity cost_of_debt equity_value debt_value : Option ℚ) :
    Except WaccError WaccResult :=
  match cost_of_equity, cost_of_debt, equity_value, debt_value with
  | some ce, some cd, some ev, some dv =>
    let total := ev + dv
    if total = 0 then .error .zeroDivision
    else
      let we := ev / total
      let wd := dv / total
      .ok { total_value := total, weight_equity := we, weight_debt := wd,
            wacc := ce * we + cd * wd }
  | _, _, _, _ => .error .missingInput

/-- Failure modes of the market-value-of-debt computation in
`get_market_values` (WACC.py lines 185-232): the prompt loop rejects a
non-positive maturity (line 193), and the two divisions on line 227 raise
`ZeroDivisionError` when their divisor is zero. -/
inductive MarketValueError where
  | invalidMaturity
  | zeroDivision
deriving DecidableEq, Repr

/-- The market-value-of-debt computation of `get_market_values` (WACC.py
lines 221-232), with the maturity validation of lines 192-195:
`pv_interest = interest * (1 - 1/(1 + cod)) / cod` and
`pv_principal = book_debt / (1 + cod) ** maturity`.  The exponent is a
real power, as the source accepts fractional maturities.  Note that a
negative, nonzero `cost_of_debt` is not rejected by this code (the cost
prompt elsewhere restricts it to [0, 0.30]). -/
noncomputable def get_market_values (interest_expense book_debt cost_of_debt maturity : ℝ) :
    Except MarketValueError ℝ :=
  if maturity ≤ 0 then .error .invalidMaturity
  else if 1 + cost_of_debt = 0 then .error .zeroDivision
  else if cost_of_debt = 0 then .error .zeroDivision
  else
    .ok ((interest_expense * (1 - 1 / (1 + cost_of_debt))) / cost_of_debt
      + book_debt / (1 + cost_of_debt) ^ maturity)

/-- A numpy float value as produced by a division: finite, an infinity, or
NaN.  With `warnings.filterwarnings` active (module top of CostofEquity.py)
the division of numpy scalars by zero emits no visible warning and yields
an infinity (or NaN for 0/0) silently. -/
inductive NpFloat where
  | finite (x : ℝ)
  | posInf
  | negInf
  | nan

/-- Numpy scalar division as used on line 443 of CostofEquity.py
(`slope / std_err`): IEEE semantics with zero divisor. -/
noncomputable def npDiv (a b : ℝ) : NpFloat :=
  if b = 0 then
    if 0 < a then .posInf else if a < 0 then .negInf else .nan
  else .finite (a / b)

/-- `np.mean` of a series. -/
noncomputable def listMean (xs : List ℝ) : ℝ := xs.sum / xs.length

/-- Biased variance of a series, the diagonal of `np.cov(x, y, bias=1)`
used inside `scipy.stats.linregress`. -/
noncomputable def ssDev (xs : List ℝ) : ℝ :=
  ((xs.map (fun a => (a - listMean xs) ^ 2)).sum) / xs.length

/-- Biased covariance of two aligned series, the off-diagonal of
`np.cov(x, y, bias=1)` used inside `scipy.stats.linregress`. -/
noncomputable def ssCross (xs ys : List ℝ) : ℝ :=
  (((xs.zip ys).map (fun p => (p.1 - listMean xs) * (p.2 - listMean ys))).sum) / xs.length

/-- The `ValueError` kinds scipy raises: on empty input series, and when a
multi-observation regressor has every value identical (zero variance). -/
inductive RegressionError where
  | inputsMustNotBeEmpty
  | allXValuesIdentical
deriving DecidableEq, Repr

/-- The fields of scipy's regression result that `calculate_beta` reads
(slope, intercept, r-value, slope standard error).  The p-value, a
t-distribution tail probability, is consumed only for display and is not
modelled. -/
structure LinregressResult where
  slope : ℝ
  intercept : ℝ
  rvalue : ℝ
  stderr : ℝ

/-- `scipy.stats.linregress(x, y)` as called on line 433 of
CostofEquity.py: least-squares slope `cov/var`, intercept through the
means, correlation clipped to [-1, 1] (zero when either variance
vanishes), and the slope standard error
`sqrt((1 - r^2) * var(y) / var(x) / (n - 2))` (zero in the two-point
special case).  Empty inputs raise `ValueError`; the identical-x check is
scipy's `np.amax(x) == np.amin(x) and len(x) > 1` — for a nonempty series,
`amax = amin` is equivalent to a zero biased variance, so it is rendered
here as `1 < x.length ∧ ssDev x = 0`.  A single-observation series passes
both guards and scipy proceeds: numpy's suppressed `0.0/0.0` then makes
the statistics NaN; in that region (never evaluated by the theorems below)
this real-valued model leaves the fields at the division-by-zero
convention of `ℝ` instead of carrying NaN through every field. -/
noncomputable def linregress (x y : List ℝ) : Except RegressionError LinregressResult :=
  if x.length = 0 ∨ y.length = 0 then .error .inputsMustNotBeEmpty
  else if 1 < x.length ∧ ssDev x = 0 then .error .allXValuesIdentical
  else
    let slope := ssCross x y / ssDev x
    let intercept := listMean y - slope * listMean x
    let rden := Real.sqrt (ssDev x * ssDev y)
    let r := if rden = 0 then 0 else max (-1) (min 1 (ssCross x y / rden))
    let stderr :=
      if x.length = 2 then 0
      else Real.sqrt ((1 - r ^ 2) * ssDev y / ssDev x / ((x.length : ℝ) - 2))
    .ok { slope := slope, intercept := intercept, rvalue := r, stderr := stderr }

/-- Pearson correlation (`pandas.Series.corr`) between the two aligned
return series, computed on line 440 of CostofEquity.py. -/
noncomputable def pearsonCorr (x y : List ℝ) : ℝ :=
  ssCross x y / (Real.sqrt (ssDev x) * Real.sqrt (ssDev y))

/-- The regression statistics stored by `calculate_beta` (CostofEquity.py
lines 437-443).  `t_statistic` is a numpy division result and can be an
unflagged infinity. -/
structure BetaResult where
  beta : ℝ
  alpha : ℝ
  r_squared : ℝ
  correlation : ℝ
  std_error : ℝ
  t_statistic : NpFloat

/-- `calculate_beta` (CostofEquity.py lines 422-443) on the aligned return
series: regress stock returns on index returns, then store beta, alpha,
r-squared, correlation, the slope standard error, and
`t_statistic = slope / std_err` (an unguarded numpy division). -/
noncomputable def calculate_beta (stock_returns index_returns : List ℝ) :
    Except RegressionError BetaResult :=
  match linregress index_returns stock_returns with
  | .error e => .error e
  | .ok res =>
    .ok { beta := res.slope, alpha := res.intercept, r_squared := res.rvalue ^ 2,
          correlation := pearsonCorr stock_returns index_returns,
          std_error := res.stderr,
          t_statistic := npDiv res.slope res.stderr }

/-- Concrete raw reference row with country text and the numeric value 5
(a whole-number percentage), used to separate the two loaders. -/
def c1_rows : List RefRow := [⟨some (Cell.str "Italy"), some (Cell.num 5)⟩]

/-- Concrete raw reference rows whose numeric values are all fractions
(at most 1). -/
def c1_fraction_rows : List RefRow := [⟨some (Cell.str "Italy"), some (Cell.num (1 / 25))⟩]

/-- The three-band example table of the specification:
bands (0, 1.5, D, 10 percent), (1.5, 3, B, 5 percent), (3, 999, A, 1 percent). -/
def specTable : List RatingBand :=
  [⟨0, 3 / 2, "D", 1 / 10⟩, ⟨3 / 2, 3, "B", 1 / 20⟩, ⟨3, 999, "A", 1 / 100⟩]

/-- A one-band table used to compare the fallback path with the in-range
path of the rating assignment. -/
def singleBandTable : List RatingBand := [⟨0, 1, "D", 1 / 10⟩]

/-- A raw ratings row whose large-cap block parses and whose other two
blocks are entirely missing. -/
def c10_row : RawRatingRow :=
  { large_cap := ⟨some (Cell.num 0), some (Cell.num 2), some (Cell.str "D"), some (Cell.num (1 / 10))⟩,
    small_cap := ⟨none, none, none, none⟩,
    financial := ⟨none, none, none, none⟩ }

/-- The ratings data that `load_synthetic_ratings_data` produces from
`c10_row`: a one-band large-cap table and empty small-cap and financial
tables. -/
def c10_data : SyntheticRatingsData := ⟨[⟨0, 2, "D", 1 / 10⟩], [], []⟩

theorem findBand_eq_get_of_first (table : List RatingBand) (ratio : ℚ) :
    ∀ (i : ℕ) (hi : i < table.length),
      inBand (table.get ⟨i, hi⟩) ratio = true →
      (∀ j (hj : j < i), inBand (table.get ⟨j, hj.trans hi⟩) ratio = false) →
      findBand table ratio = some (table.get ⟨i, hi⟩) := by
  induction table with
  | nil => intro i hi; exact absurd hi (by simp)
  | cons b rest ih =>
    intro i hi hband hprev
    cases i with
    | zero =>
      simp only [List.get] at hband ⊢
      simp [findBand, hband]
    | succ n =>
      have hb : inBand b ratio = false := hprev 0 (Nat.succ_pos n)
      simp only [List.get] at hband ⊢
      rw [findBand, if_neg (by simp [hb])]
      exact ih n (Nat.lt_of_succ_lt_succ hi) hband
        (fun j hj => hprev (j + 1) (Nat.succ_lt_succ hj))

theorem findBand_eq_none_of_all (table : List RatingBand) (ratio : ℚ)
    (h : ∀ x ∈ table, inBand x ratio = false) : findBand table ratio = none := by
  induction table with
  | nil => rfl
  | cons b rest ih =>
    rw [findBand, if_neg (by simp [h b (List.mem_cons_self b rest)])]
    exact ih (fun x hx => h x (List.mem_cons_of_mem b hx))

/-- C2: the rating assignment scans the table in stored order and returns
the rating and spread of the first band whose closed interval contains the
coverage ratio (so a shared boundary resolves to the earlier band); when no
band contains the ratio it returns the rating and spread of the table's
first entry instead of failing.  (The crash on an empty selected table,
where no first entry exists, is treated separately by the implicit safety
claim.) -/
theorem c2_first_match_and_fallback :
    (∀ (table : List RatingBand) (ratio : ℚ) (i : ℕ) (hi : i < table.length),
      inBand (table.get ⟨i, hi⟩) ratio = true →
      (∀ j (hj : j < i), inBand (table.get ⟨j, hj.trans hi⟩) ratio = false) →
      assign_synthetic_rating table ratio =
        .ok ((table.get ⟨i, hi⟩).rating, (table.get ⟨i, hi⟩).spread)) ∧
    (∀ (table : List RatingBand) (ratio : ℚ) (worst : RatingBand) (rest : List RatingBand),
      table = worst :: rest →
      (∀ x ∈ table, inBand x ratio = false) →
      assign_synthetic_rating table ratio = .ok (worst.rating, worst.spread)) := by
  constructor
  · intro table ratio i hi hband hprev
    simp only [assign_synthetic_rating,
      findBand_eq_get_of_first table ratio i hi hband hprev]
  · intro table ratio worst rest htab hall
    subst htab
    simp only [assign_synthetic_rating, findBand_eq_none_of_all _ ratio hall]

/-- Witness for C2 on the specification's example table: ratio 1.5 lands in
the first band D at the shared boundary, and ratio -1 takes the fallback to
the first entry D. -/
theorem c2_witness :
    assign_synthetic_rating specTable (3 / 2) = .ok ("D", 1 / 10) ∧
    assign_synthetic_rating specTable (-1) = .ok ("D", 1 / 10) := by
  constructor
  · have h := c2_first_match_and_fallback.1 specTable (3 / 2) 0 (by norm_num [specTable])
      (by norm_num [specTable, inBand, List.get_cons_zero])
      (fun j hj => absurd hj (Nat.not_lt_zero j))
    simpa [specTable, List.get_cons_zero] using h
  · refine c2_first_match_and_fallback.2 specTable (-1) ⟨0, 3 / 2, "D", 1 / 10⟩
      [⟨3 / 2, 3, "B", 1 / 20⟩, ⟨3, 999, "A", 1 / 100⟩] rfl ?_
    intro x hx
    simp only [specTable, List.mem_cons, List.not_mem_nil, or_false] at hx
    rcases hx with rfl | rfl | rfl <;> norm_num [inBand]

/-- C5 is refuted: on a one-band table, the in-range ratio 1/2 and the
out-of-range ratio 2 (which matches no band and takes the fallback path)
produce identical results — the value returned to the caller carries no
flag or marker distinguishing the fallback from a normal assignment. -/
theorem c5_counterexample :
    inBand ⟨0, 1, "D", 1 / 10⟩ (1 / 2) = true ∧
    findBand singleBandTable 2 = none ∧
    assign_synthetic_rating singleBandTable (1 / 2) = .ok ("D", 1 / 10) ∧
    assign_synthetic_rating singleBandTable 2 = .ok ("D", 1 / 10) := by
  refine ⟨by norm_num [inBand], by norm_num [singleBandTable, findBand, inBand], ?_, ?_⟩
  · norm_num [singleBandTable, assign_synthetic_rating, findBand, inBand]
  · norm_num [singleBandTable, assign_synthetic_rating, findBand, inBand]

/-- C5 amended: when the fallback path is taken (nonempty table, ratio in
no band), the assignment returns the first band's rating and spread through
the very same success shape as a normal in-range assignment; nothing in the
returned value distinguishes the two paths (the source only prints a
console warning). -/
theorem c5_fallback_indistinguishable
    (b : RatingBand) (rest : List RatingBand) (r1 r2 : ℚ)
    (h1 : inBand b r1 = true) (h2 : findBand (b :: rest) r2 = none) :
    assign_synthetic_rating (b :: rest) r1 = assign_synthetic_rating (b :: rest) r2 := by
  have hfind : findBand (b :: rest) r1 = some b := by
    simp only [findBand, h1, if_true]
  simp only [assign_synthetic_rating, hfind, h2]

/-- Witness for the amended C5 at the one-band table: the in-range ratio
1/2 and the fallback ratio 2 yield equal results. -/
theorem c5_witness :
    assign_synthetic_rating singleBandTable (1 / 2) =
      assign_synthetic_rating singleBandTable 2 :=
  c5_fallback_indistinguishable ⟨0, 1, "D", 1 / 10⟩ [] (1 / 2) 2
    (by norm_num [inBand]) (by norm_num [findBand, inBand])

/-- C10: loading succeeds when only the large-cap block of the sheet has a
valid row, leaving the financial table empty; a financial-type company with
an out-of-range coverage ratio then drives the fallback `rating_table[0]`
into an empty list, and the assignment aborts with an index error instead
of returning a worst rating. -/
theorem c10_empty_selected_table_crash :
    load_synthetic_ratings_data [c10_row] = .ok c10_data ∧
    c10_data.large_cap ≠ [] ∧
    c10_data.financial = [] ∧
    assign_by_type c10_data .financial 5 = .error .indexError := by
  refine ⟨rfl, by decide, rfl, rfl⟩

theorem loaders_agree_aux :
    ∀ (rows : List RefRow) (acc : String → Option ℚ),
      (∀ r ∈ rows, ∀ v : Cell, r.value = some v → ∀ q : ℚ, cellFloat v = some q → q ≤ 1) →
      rows.foldl bond_store_row acc = rows.foldl erp_store_row acc := by
  intro rows
  induction rows with
  | nil => intro acc _; rfl
  | cons r rest ih =>
    intro acc h
    have hstep : bond_store_row acc r = erp_store_row acc r := by
      rcases r with ⟨co, va⟩
      cases co with
      | none => rfl
      | some c =>
        cases va with
        | none => rfl
        | some v =>
          cases hv : cellFloat v with
          | none => simp only [bond_store_row, erp_store_row, hv]
          | some q =>
            have hq : ¬ (1 : ℚ) < q :=
              not_lt.mpr (h ⟨some c, some v⟩ (List.mem_cons_self _ _) v rfl q hv)
            simp only [bond_store_row, erp_store_row, hv]
            rw [show (if q > 1 then q / 100 else q) = q from if_neg hq]
    rw [List.foldl_cons, List.foldl_cons, hstep]
    exact ih (erp_store_row acc r) (fun r hr => h r (List.mem_cons_of_mem _ hr))

/-- C1 is refuted: on the same raw row with country text and numeric value
5 (a whole-number percentage), the bond-yield loader stores 5/100 = 1/20
while the ERP loader stores 5 unchanged — the ERP loader has no
divide-by-100 normalization, so the two loaders do not map the same raw
value to the same stored fraction. -/
theorem c1_counterexample :
    load_bond_yield_data c1_rows (normalizeKey "Italy") = some (1 / 20) ∧
    load_erp_data c1_rows (normalizeKey "Italy") = some 5 ∧
    (1 / 20 : ℚ) ≠ 5 := by
  refine ⟨?_, ?_, by norm_num⟩
  · simp only [c1_rows, load_bond_yield_data, List.foldl_cons, List.foldl_nil,
      bond_store_row, cellFloat, cellStr]
    norm_num
  · simp only [c1_rows, load_erp_data, List.foldl_cons, List.foldl_nil,
      erp_store_row, cellFloat, cellStr]
    simp

/-- C1 amended: both loaders store the value under the upper-cased, trimmed
country key, but only the bond-yield loader divides values greater than 1
by 100; the ERP loader stores the raw value unchanged.  Consequently the
two loaders agree exactly on inputs whose numeric values are all at most 1
(values already expressed as fractions). -/
theorem c1_normalization_divergence :
    (∀ rows : List RefRow,
      (∀ r ∈ rows, ∀ v : Cell, r.value = some v → ∀ q : ℚ, cellFloat v = some q → q ≤ 1) →
      load_bond_yield_data rows = load_erp_data rows) ∧
    (∀ (c : Cell) (v : ℚ) (k : String),
      load_bond_yield_data [⟨some c, some (Cell.num v)⟩] k =
        (if k = normalizeKey (cellStr c) then some (if v > 1 then v / 100 else v) else none) ∧
      load_erp_data [⟨some c, some (Cell.num v)⟩] k =
        (if k = normalizeKey (cellStr c) then some v else none)) := by
  constructor
  · intro rows h
    exact loaders_agree_aux rows (fun _ => none) h
  · intro c v k
    constructor
    · simp only [load_bond_yield_data, List.foldl_cons, List.foldl_nil,
        bond_store_row, cellFloat]
    · simp only [load_erp_data, List.foldl_cons, List.foldl_nil,
        erp_store_row, cellFloat]

/-- Witness for the amended C1: on a row whose value 1/25 is already a
fraction, the two loaders produce the same table. -/
theorem c1_witness :
    load_bond_yield_data c1_fraction_rows = load_erp_data c1_fraction_rows := by
  refine c1_normalization_divergence.1 c1_fraction_rows ?_
  intro r hr v hv q hq
  simp only [c1_fraction_rows, List.mem_singleton] at hr
  subst hr
  simp only [Option.some.injEq] at hv
  subst hv
  simp only [cellFloat, Option.some.injEq] at hq
  subst hq
  norm_num

/-- C7: with all three inputs present the after-tax cost of debt is exactly
`(risk_free_rate + spread) * (1 - tax_rate)` with no clamping; on [0,1]^3
it is monotonically increasing in the risk-free rate and in the spread and
decreasing in the tax rate; and it fails with the missing-input error when
any of the three inputs is absent. -/
theorem c7_cost_of_debt_formula :
    (∀ rf sp tax : ℚ,
      calculate_cost_of_debt (some rf) (some sp) (some tax) = .ok ((rf + sp) * (1 - tax))) ∧
    (∀ rf rf2 sp tax v v2 : ℚ, 0 ≤ rf → rf ≤ rf2 → rf2 ≤ 1 → 0 ≤ sp → sp ≤ 1 →
      0 ≤ tax → tax ≤ 1 →
      calculate_cost_of_debt (some rf) (some sp) (some tax) = .ok v →
      calculate_cost_of_debt (some rf2) (some sp) (some tax) = .ok v2 → v ≤ v2) ∧
    (∀ rf sp sp2 tax v v2 : ℚ, 0 ≤ rf → rf ≤ 1 → 0 ≤ sp → sp ≤ sp2 → sp2 ≤ 1 →
      0 ≤ tax → tax ≤ 1 →
      calculate_cost_of_debt (some rf) (some sp) (some tax) = .ok v →
      calculate_cost_of_debt (some rf) (some sp2) (some tax) = .ok v2 → v ≤ v2) ∧
    (∀ rf sp tax tax2 v v2 : ℚ, 0 ≤ rf → rf ≤ 1 → 0 ≤ sp → sp ≤ 1 →
      0 ≤ tax → tax ≤ tax2 → tax2 ≤ 1 →
      calculate_cost_of_debt (some rf) (some sp) (some tax) = .ok v →
      calculate_cost_of_debt (some rf) (some sp) (some tax2) = .ok v2 → v2 ≤ v) ∧
    (∀ rf sp tax : Option ℚ, rf = none ∨ sp = none ∨ tax = none →
      calculate_cost_of_debt rf sp tax = .error .missingInput) := by
  refine ⟨fun rf sp tax => rfl, ?_, ?_, ?_, ?_⟩
  · intro rf rf2 sp tax v v2 _ hle _ _ _ _ htax hv hv2
    simp only [calculate_cost_of_debt, Except.ok.injEq] at hv hv2
    subst hv; subst hv2
    have h1 : (0 : ℚ) ≤ 1 - tax := by linarith
    nlinarith
  · intro rf sp sp2 tax v v2 _ _ _ hle _ _ htax hv hv2
    simp only [calculate_cost_of_debt, Except.ok.injEq] at hv hv2
    subst hv; subst hv2
    have h1 : (0 : ℚ) ≤ 1 - tax := by linarith
    nlinarith
  · intro rf sp tax tax2 v v2 hrf _ hsp _ _ hle _ hv hv2
    simp only [calculate_cost_of_debt, Except.ok.injEq] at hv hv2
    subst hv; subst hv2
    have h1 : (0 : ℚ) ≤ rf + sp := by linarith
    nlinarith
  · rintro rf sp tax (rfl | rfl | rfl)
    · rfl
    · cases rf <;> rfl
    · cases rf <;> cases sp <;> rfl

/-- Witness for C7 at concrete inputs: the formula at (5 percent, 2
percent, 25 percent) gives 21/400, and raising the risk-free rate from
1/10 to 1/5 at spread 1/10 and tax rate 1/2 raises the result from 1/10 to
3/20. -/
theorem c7_witness :
    calculate_cost_of_debt (some (1 / 20)) (some (1 / 50)) (some (1 / 4)) = .ok (21 / 400) ∧
    (1 / 10 : ℚ) ≤ 3 / 20 := by
  constructor
  · have h := c7_cost_of_debt_formula.1 (1 / 20) (1 / 50) (1 / 4)
    rw [h]; norm_num
  · exact c7_cost_of_debt_formula.2.1 (1 / 10) (1 / 5) (1 / 10) (1 / 2) (1 / 10) (3 / 20)
      (by norm_num) (by norm_num) (by norm_num) (by norm_num) (by norm_num)
      (by norm_num) (by norm_num)
      (by rw [c7_cost_of_debt_formula.1]; norm_num)
      (by rw [c7_cost_of_debt_formula.1]; norm_num)

/-- C8: the stored coverage ratio is `ebit / interest_expense` whenever the
interest value is positive, and is fixed at the sentinel 20 when the
interest value is zero or negative (with the stored expense forced to 0);
in particular EBIT 1500 and interest 75 (in millions, ratio exactly 20)
produce through the computed path the same value 20 that the sentinel path
produces for interest 0. -/
theorem c8_coverage_ratio :
    (∀ e i : ℚ, 0 < i →
      (get_financial_inputs e i).interest_coverage_ratio =
        (get_financial_inputs e i).ebit / (get_financial_inputs e i).interest_expense) ∧
    (∀ e i : ℚ, i ≤ 0 →
      (get_financial_inputs e i).interest_expense = 0 ∧
      (get_financial_inputs e i).interest_coverage_ratio = 20) ∧
    (get_financial_inputs 1500 75).interest_coverage_ratio = 20 ∧
    (get_financial_inputs 1500 0).interest_coverage_ratio = 20 := by
  refine ⟨?_, ?_, ?_, ?_⟩
  · intro e i hi
    have hpos : ¬ i * 1000000 ≤ 0 := not_le.mpr (by positivity)
    simp [get_financial_inputs, hpos]
  · intro e i hi
    have hneg : i * 1000000 ≤ 0 := by nlinarith
    simp [get_financial_inputs, hneg]
  · have hpos : ¬ (75 : ℚ) * 1000000 ≤ 0 := by norm_num
    simp [get_financial_inputs, hpos]
    norm_num
  · simp [get_financial_inputs]

/-- Witness for C8: EBIT 1500 and interest 75 through the computed path,
and interest -5 through the sentinel path. -/
theorem c8_witness :
    (get_financial_inputs 1500 75).interest_coverage_ratio =
      (get_financial_inputs 1500 75).ebit / (get_financial_inputs 1500 75).interest_expense ∧
    (get_financial_inputs 1500 (-5)).interest_coverage_ratio = 20 := by
  constructor
  · exact c8_coverage_ratio.1 1500 75 (by norm_num)
  · exact (c8_coverage_ratio.2.1 1500 (-5) (by norm_num)).2

/-- C3 is refuted: `calculate_wacc` contains no check against a
non-positive total value.  With equity value -2 and debt value 1 the total
is -1 (not positive) and the code divides by it and returns a result
instead of failing with any invalid-value error: the weights become 2 and
-1 and the returned value is 3/20 for costs 1/10 and 1/20. -/
theorem c3_counterexample :
    (-2 : ℚ) + 1 ≤ 0 ∧
    calculate_wacc (some (1 / 10)) (some (1 / 20)) (some (-2)) (some 1) =
      .ok ⟨-1, 2, -1, 3 / 20⟩ := by
  constructor
  · norm_num
  · have hne : (-2 : ℚ) + 1 ≠ 0 := by norm_num
    simp only [calculate_wacc, if_neg hne]
    norm_num

/-- C3 amended: `calculate_wacc` fails with the missing-input error when
any of the four inputs is absent; when all are present it has no
invalid-value guard — a total of exactly zero raises an unguarded
`ZeroDivisionError` at the weight division, and any nonzero total
(negative totals included) is divided through, returning the weighted
value. -/
theorem c3_wacc_error_handling :
    (∀ ce cd ev dv : Option ℚ, ce = none ∨ cd = none ∨ ev = none ∨ dv = none →
      calculate_wacc ce cd ev dv = .error .missingInput) ∧
    (∀ ce cd ev dv : ℚ, ev + dv = 0 →
      calculate_wacc (some ce) (some cd) (some ev) (some dv) = .error .zeroDivision) ∧
    (∀ ce cd ev dv : ℚ, ev + dv ≠ 0 →
      calculate_wacc (some ce) (some cd) (some ev) (some dv) =
        .ok ⟨ev + dv, ev / (ev + dv), dv / (ev + dv),
             ce * (ev / (ev + dv)) + cd * (dv / (ev + dv))⟩) := by
  refine ⟨?_, ?_, ?_⟩
  · rintro ce cd ev dv (rfl | rfl | rfl | rfl)
    · rfl
    · cases ce <;> rfl
    · cases ce <;> cases cd <;> rfl
    · cases ce <;> cases cd <;> cases ev <;> rfl
  · intro ce cd ev dv h
    simp only [calculate_wacc, if_pos h]
  · intro ce cd ev dv h
    simp only [calculate_wacc, if_neg h]

/-- Witness for the amended C3: a missing debt value fails, a zero total
hits the zero-division error, and a positive total returns the weighted
average. -/
theorem c3_witness :
    calculate_wacc (some (1 / 10)) (some (1 / 20)) (some 3) none = .error .missingInput ∧
    calculate_wacc (some (1 / 10)) (some (1 / 20)) (some 3) (some (-3)) =
      .error .zeroDivision ∧
    calculate_wacc (some (1 / 10)) (some (1 / 20)) (some 3) (some 1) =
      .ok ⟨4, 3 / 4, 1 / 4, 7 / 80⟩ := by
  refine ⟨?_, ?_, ?_⟩
  · exact c3_wacc_error_handling.1 (some (1 / 10)) (some (1 / 20)) (some 3) none
      (Or.inr (Or.inr (Or.inr rfl)))
  · exact c3_wacc_error_handling.2.1 (1 / 10) (1 / 20) 3 (-3) (by norm_num)
  · have h := c3_wacc_error_handling.2.2 (1 / 10) (1 / 20) 3 1 (by norm_num)
    rw [h]
    norm_num

/-- C9: for positive equity and debt values the WACC computation returns
weights `equity/(equity+debt)` and `debt/(equity+debt)`, these weights sum
exactly to 1 (so certainly within 1e-9), and the returned value is
`cost_of_equity * weight_equity + cost_of_debt * weight_debt`. -/
theorem c9_wacc_weights (ce cd ev dv : ℚ) (hev : 0 < ev) (hdv : 0 < dv) :
    calculate_wacc (some ce) (some cd) (some ev) (some dv) =
      .ok ⟨ev + dv, ev / (ev + dv), dv / (ev + dv),
           ce * (ev / (ev + dv)) + cd * (dv / (ev + dv))⟩ ∧
    ev / (ev + dv) + dv / (ev + dv) = 1 := by
  have htot : ev + dv ≠ 0 := by positivity
  constructor
  · simp only [calculate_wacc, if_neg htot]
  · rw [div_add_div_same, div_self htot]

/-- Witness for C9 at equity 1 and debt 1: weights 1/2 and 1/2 summing to
1, value (1/5)/2 + (1/10)/2 = 3/20. -/
theorem c9_witness :
    calculate_wacc (some (1 / 5)) (some (1 / 10)) (some 1) (some 1) =
      .ok ⟨2, 1 / 2, 1 / 2, 3 / 20⟩ ∧
    (1 : ℚ) / 2 + 1 / 2 = 1 := by
  have h := c9_wacc_weights (1 / 5) (1 / 10) 1 1 (by norm_num) (by norm_num)
  constructor
  · rw [h.1]; norm_num
  · norm_num

/-- C6 is refuted on its failure clause: the claim demands failure for
every non-positive cost of debt, but the code only raises on a divisor
that is exactly zero — at cost of debt -1/2 (negative, with maturity 1)
the computation succeeds and returns 400 instead of failing. -/
theorem c6_counterexample :
    (-1 / 2 : ℝ) ≤ 0 ∧
    get_market_values 100 100 (-1 / 2) 1 = .ok 400 := by
  constructor
  · norm_num
  · have h1 : ¬ (1 : ℝ) ≤ 0 := by norm_num
    have h2 : (1 : ℝ) + -1 / 2 ≠ 0 := by norm_num
    have h3 : (-1 / 2 : ℝ) ≠ 0 := by norm_num
    simp only [get_market_values, if_neg h1, if_neg h2, if_neg h3]
    rw [Real.rpow_one]
    norm_num

/-- C6 amended: for positive cost of debt and positive maturity the market
value of debt is exactly `interest * (1 - 1/(1+cod))/cod` (the
single-period form) plus `book / (1+cod)^maturity`; a non-positive
maturity is rejected (invalid-maturity) and a zero cost of debt raises the
zero-division error; but a negative nonzero cost of debt is not rejected
by this computation (the cost prompt elsewhere keeps it in [0, 0.30]).
The closed conjunct separates the single-period interest term from a
two-period annuity: at rate 1, coupon 100 and zero principal the code
gives 50 while the annuity sum would give 75. -/
theorem c6_market_value_of_debt :
    (∀ i b c m : ℝ,
      (0 < c → 0 < m →
        get_market_values i b c m =
          .ok ((i * (1 - 1 / (1 + c))) / c + b / (1 + c) ^ m)) ∧
      (m ≤ 0 → get_market_values i b c m = .error .invalidMaturity) ∧
      (c = 0 → 0 < m → get_market_values i b c m = .error .zeroDivision)) ∧
    (get_market_values 100 0 1 2 = .ok 50 ∧ (50 : ℝ) ≠ 100 / 2 + 100 / 4) := by
  constructor
  · intro i b c m
    refine ⟨?_, ?_, ?_⟩
    · intro hc hm
      have h1 : ¬ m ≤ 0 := not_le.mpr hm
      have h2 : (1 : ℝ) + c ≠ 0 := ne_of_gt (by linarith)
      have h3 : c ≠ 0 := ne_of_gt hc
      simp only [get_market_values, if_neg h1, if_neg h2, if_neg h3]
    · intro hm
      simp only [get_market_values, if_pos hm]
    · intro hc hm
      subst hc
      have h1 : ¬ m ≤ 0 := not_le.mpr hm
      have h2 : (1 : ℝ) + 0 ≠ 0 := by norm_num
      simp only [get_market_values, if_neg h1, if_neg h2, if_pos rfl, if_true]
  · constructor
    · have h1 : ¬ (2 : ℝ) ≤ 0 := by norm_num
      have h2 : (1 : ℝ) + 1 ≠ 0 := by norm_num
      have h3 : (1 : ℝ) ≠ 0 := one_ne_zero
      simp only [get_market_values, if_neg h1, if_neg h2, if_neg h3]
      norm_num
    · norm_num

/-- Witness for the amended C6 at coupon 100, principal 0, rate 1 and
maturity 2: the formula evaluates to 50. -/
theorem c6_witness :
    (0 : ℝ) < 1 ∧ (0 : ℝ) < 2 ∧ get_market_values 100 0 1 2 = .ok 50 := by
  refine ⟨by norm_num, by norm_num, ?_⟩
  have h := (c6_market_value_of_debt.1 100 0 1 2).1 (by norm_num) (by norm_num)
  rw [h]
  norm_num

theorem listMean_012 : listMean [0, 1, 2] = 1 := by
  norm_num [listMean, List.sum_cons, List.sum_nil]

theorem listMean_024 : listMean [0, 2, 4] = 2 := by
  norm_num [listMean, List.sum_cons, List.sum_nil]

theorem ssDev_012 : ssDev [0, 1, 2] = 2 / 3 := by
  simp only [ssDev, listMean_012, List.map_cons, List.map_nil]
  norm_num

theorem ssDev_024 : ssDev [0, 2, 4] = 8 / 3 := by
  simp only [ssDev, listMean_024, List.map_cons, List.map_nil]
  norm_num

theorem ssCross_example : ssCross [0, 1, 2] [0, 2, 4] = 4 / 3 := by
  simp only [ssCross, listMean_012, listMean_024, List.zip_cons_cons,
    List.zip_nil_right, List.map_cons, List.map_nil]
  norm_num

theorem linregress_perfect_fit : linregress [0, 1, 2] [0, 2, 4] = .ok ⟨2, 0, 1, 0⟩ := by
  have hlen : ([0, 1, 2] : List ℝ).length = 3 := rfl
  have hlen2 : ([0, 2, 4] : List ℝ).length = 3 := rfl
  have hs : Real.sqrt (2 / 3 * (8 / 3)) = 4 / 3 := by
    rw [show (2 / 3 * (8 / 3) : ℝ) = (4 / 3) ^ 2 by norm_num]
    exact Real.sqrt_sq (by norm_num)
  have hq : ((4 : ℝ) / 3) / (4 / 3) = 1 := by norm_num
  simp only [linregress, ssDev_012, ssDev_024, ssCross_example,
    listMean_012, listMean_024, hlen, hlen2]
  rw [if_neg (by norm_num : ¬ ((3 : ℕ) = 0 ∨ (3 : ℕ) = 0)),
    if_neg (by norm_num : ¬ (1 < (3 : ℕ) ∧ (2 / 3 : ℝ) = 0)), hs,
    if_neg (by norm_num : ¬ (4 / 3 : ℝ) = 0), hq, min_self,
    max_eq_right (by norm_num : (-1 : ℝ) ≤ 1),
    if_neg (by norm_num : ¬ (3 : ℕ) = 2),
    show ((1 : ℝ) - 1 ^ 2) * (8 / 3) / (2 / 3) / ((3 : ℕ) - 2) = 0 by norm_num,
    Real.sqrt_zero]
  norm_num

/-- C4 is refuted on its standard-error clause: on a perfectly correlated
pair of return series (stock returns exactly twice the index returns) the
slope standard error is 0.0 and `calculate_beta` succeeds, silently storing
the IEEE infinity that numpy produces for `slope / std_err` (warnings are
suppressed at module load); no error is raised and no flag marks the
result. -/
theorem c4_counterexample :
    (calculate_beta [0, 2, 4] [0, 1, 2]).map (fun r => r.std_error) = .ok 0 ∧
    (calculate_beta [0, 2, 4] [0, 1, 2]).map (fun r => r.t_statistic) =
      .ok NpFloat.posInf := by
  constructor
  · simp only [calculate_beta, linregress_perfect_fit, Except.map]
  · simp only [calculate_beta, linregress_perfect_fit, Except.map, npDiv]
    norm_num

/-- C4 amended: a zero-variance index-return series of at least two
observations (all identical, nonempty stock series) makes the regression
fail with scipy's untyped value error (there is no
`DegenerateRegressionError` in the code), so no arbitrary beta is produced
there; a single-observation index series, however, passes scipy's
`len(x) > 1` guard and the estimation succeeds silently (numpy's
suppressed 0.0/0.0 leaves NaN statistics); and a zero slope standard error
on the success path makes the stored t-statistic a silent IEEE infinity
(or NaN for a zero slope) with no error raised and no marker flag on the
result. -/
theorem c4_degenerate_regression :
    (∀ (c : ℝ) (k : ℕ) (stock_returns : List ℝ), 1 < k → stock_returns ≠ [] →
      calculate_beta stock_returns (List.replicate k c) =
        .error .allXValuesIdentical) ∧
    (∀ c y : ℝ, ∃ r, calculate_beta [y] [c] = .ok r) ∧
    (∀ (stock_returns index_returns : List ℝ) (res : BetaResult),
      calculate_beta stock_returns index_returns = .ok res → res.std_error = 0 →
      res.t_statistic = NpFloat.posInf ∨ res.t_statistic = NpFloat.negInf ∨
        res.t_statistic = NpFloat.nan) := by
  refine ⟨?_, ?_, ?_⟩
  · intro c k stock hk hstock
    have hkR : (k : ℝ) ≠ 0 := Nat.cast_ne_zero.mpr (by omega)
    have hmean : listMean (List.replicate k c) = c := by
      simp only [listMean, List.sum_replicate, List.length_replicate, nsmul_eq_mul]
      exact mul_div_cancel_left₀ c hkR
    have hss : ssDev (List.replicate k c) = 0 := by
      simp [ssDev, hmean, List.map_replicate, List.sum_replicate]
    have h1 : ¬ (k = 0 ∨ stock = []) := by
      push_neg
      exact ⟨by omega, hstock⟩
    have h2 : 1 < k ∧ ssDev (List.replicate k c) = 0 := ⟨hk, hss⟩
    simp only [calculate_beta, linregress, List.length_replicate, List.length_eq_zero]
    rw [if_neg h1, if_pos h2]
  · intro c y
    have h1 : ¬ (([c] : List ℝ).length = 0 ∨ ([y] : List ℝ).length = 0) := by simp
    have h2 : ¬ (1 < ([c] : List ℝ).length ∧ ssDev [c] = 0) := by simp
    simp only [calculate_beta, linregress, if_neg h1, if_neg h2]
    exact ⟨_, rfl⟩
  · intro stock index res hok hse
    cases hlr : linregress index stock with
    | error e => simp [calculate_beta, hlr] at hok
    | ok lr =>
      simp only [calculate_beta, hlr, Except.ok.injEq] at hok
      subst hok
      have hse2 : lr.stderr = 0 := hse
      show npDiv lr.slope lr.stderr = _ ∨ npDiv lr.slope lr.stderr = _ ∨
        npDiv lr.slope lr.stderr = _
      rw [hse2]
      rcases lt_trichotomy (0 : ℝ) lr.slope with h | h | h
      · left
        rw [npDiv, if_pos rfl, if_pos h]
      · right; right
        rw [npDiv, if_pos rfl, if_neg (by rw [← h]; exact lt_irrefl 0),
          if_neg (by rw [← h]; exact lt_irrefl 0)]
      · right; left
        rw [npDiv, if_pos rfl, if_neg (not_lt.mpr (le_of_lt h)), if_pos h]

/-- Witness for the amended C4: a three-observation index series of
identical returns, against a nonempty stock series, makes the beta
estimation fail rather than produce a beta. -/
theorem c4_witness :
    calculate_beta [1, 2, 3] (List.replicate 3 1) = .error .allXValuesIdentical :=
  c4_degenerate_regression.1 1 3 [1, 2, 3] (by norm_num) (by simp)

end WaccStep
